import Mathlib

/-!
Verification of the Hunyuan-3D-v3 ComfyUI extension.

This file gives a shallow embedding in Lean 4 of the core operations of the
repository — the Tencent Cloud API client (`src/hunyuan_3d/api_client.py`),
the batch driver (`src/hunyuan_3d/batch_nodes.py`) and the file manager
(`src/hunyuan_3d/file_manager.py`) — and proves or refutes the specification
claims about them.

Modelling conventions:
* Python strings are Lean `String`s; Python ints are `Int` or `Nat`;
  Python floats (progress percentages, modification times) are `ℚ` or `Int`.
* Calls into external collaborators (the Tencent SDK network calls, `aiohttp`
  responses, `hashlib.md5`, the filesystem) are parameters of the embedded
  functions: a poll loop takes the sequence of remote responses, a download
  takes the HTTP status and body-read outcome, a hash is an abstract
  `String → String` argument.
* A Python function that can raise is embedded with `Except String` results;
  the raised exception's message is the `String`.
-/

namespace Hunyuan3D

/-! ## Decimal rendering of a nonnegative integer

Models Python's `str(n)` / f-string interpolation for a nonnegative `int`.
Defined with explicit structural fuel so that it reduces by kernel
computation; `pyIntStrAux fuel n` is the list of decimal digit characters of
`n`, least significant first, for any `fuel ≥ n`. -/

/-- The decimal digit character for `d` (defined for `d < 10`). -/
def digitChar : Nat → Char
  | 0 => '0' | 1 => '1' | 2 => '2' | 3 => '3' | 4 => '4'
  | 5 => '5' | 6 => '6' | 7 => '7' | 8 => '8' | 9 => '9'
  | _ => '0'

/-- Numeric value of a decimal digit character. -/
def charDigit (c : Char) : Nat :=
  match c with
  | '0' => 0 | '1' => 1 | '2' => 2 | '3' => 3 | '4' => 4
  | '5' => 5 | '6' => 6 | '7' => 7 | '8' => 8 | '9' => 9
  | _ => 0

/-- Digits of `n`, least significant first (adequate when `fuel ≥ n`). -/
def pyIntStrAux : Nat → Nat → List Char
  | _, 0 => []
  | 0, _ + 1 => []
  | fuel + 1, n + 1 => digitChar ((n + 1) % 10) :: pyIntStrAux fuel ((n + 1) / 10)

/-- Python's `str(n)` for a nonnegative integer `n`. -/
def pyIntStr (n : Nat) : String :=
  if n = 0 then "0" else String.mk (pyIntStrAux n n).reverse

/-- Value of a least-significant-first digit list. -/
def digitsVal (l : List Char) : Nat :=
  l.foldr (fun c acc => acc * 10 + charDigit c) 0

/-! ## Data model of the API client

`TaskResult` is the dictionary returned by
`TencentCloudAPIClient.query_task_status`; `ResultUrl` is one entry of its
`"result_urls"` list (a dict with exactly the keys `"url"`, `"type"`,
`"preview_url"`). -/

/-- One entry of the `result_urls` list built by `query_task_status`. -/
structure ResultUrl where
  url : String
  type : String
  preview_url : String
deriving DecidableEq, Repr

/-- The dictionary returned by `query_task_status`. -/
structure TaskResult where
  status : String
  result_urls : List ResultUrl
  error_code : String
  error_message : String
deriving DecidableEq, Repr

/-- One element of the remote `ResultFile3Ds` list; each field is `none` when
the corresponding key (`"Url"`, `"Type"`, `"PreviewImageUrl"`) is absent from
the remote response. -/
structure RemoteFile3D where
  urlField : Option String
  typeField : Option String
  previewField : Option String
deriving DecidableEq, Repr

/-- The remote `resp["Response"]` dictionary consumed by `query_task_status`;
each field is `none` when the corresponding key (`"Status"`, `"ErrorCode"`,
`"ErrorMessage"`, `"ResultFile3Ds"`) is absent. -/
structure RemoteResponse where
  statusField : Option String
  errorCodeField : Option String
  errorMessageField : Option String
  resultFile3Ds : Option (List RemoteFile3D)
deriving DecidableEq, Repr

/-- Embedding of `TencentCloudAPIClient.query_task_status`
(`api_client.py` lines 198-218): builds the result dictionary from the remote
response, defaulting every missing field to `""`, and fills `result_urls`
only when the status is `"DONE"` and the key `ResultFile3Ds` is present. -/
def query_task_status (resp : RemoteResponse) : TaskResult :=
  let status := resp.statusField.getD ""
  let result_urls : List ResultUrl :=
    match resp.resultFile3Ds with
    | some files =>
      if status = "DONE" then
        files.map (fun f =>
          { url := f.urlField.getD ""
            type := f.typeField.getD ""
            preview_url := f.previewField.getD "" })
      else []
    | none => []
  { status := status
    result_urls := result_urls
    error_code := resp.errorCodeField.getD ""
    error_message := resp.errorMessageField.getD "" }

/-! ## Job submission (`text_to_3d`, `image_to_3d`)

The client functions build a parameter dictionary and immediately hand it to
the network (`self.client.call_json("SubmitHunyuanTo3DProJob", params)`).
They contain no validation branch, so the embedding records the single action
each of them performs before the remote call returns. -/

/-- The parameter dictionary built by `text_to_3d` (`api_client.py` 82-92).
`PolygonType` is `none` when the key is absent from the dict. -/
structure TextTo3DParams where
  Prompt : String
  EnablePBR : Bool
  FaceCount : Int
  GenerateType : String
  PolygonType : Option String
deriving DecidableEq, Repr

/-- The parameter dictionary built by `image_to_3d` (`api_client.py` 134-144). -/
structure ImageTo3DParams where
  ImageBase64 : String
  EnablePBR : Bool
  FaceCount : Int
  GenerateType : String
  PolygonType : Option String
deriving DecidableEq, Repr

/-- The first externally visible action of a submission function: either a
client-side validation rejection (raised before any network call) or a network
call with an action name and a parameter payload. -/
inductive SubmitStep (P : Type) where
  | validationError (msg : String)
  | networkCall (action : String) (params : P)
deriving DecidableEq, Repr

/-- `true` iff the step is a client-side validation rejection. -/
def SubmitStep.isValidationError {P : Type} : SubmitStep P → Bool
  | .validationError _ => true
  | .networkCall _ _ => false

/-- Embedding of `TencentCloudAPIClient.text_to_3d` (`api_client.py` 63-113)
up to the remote call: the function unconditionally builds the parameter
dictionary and submits it; `PolygonType` is added only when
`generate_type == "LowPoly"`. -/
def text_to_3d (prompt : String) (enable_pbr : Bool) (face_count : Int)
    (generate_type : String) (polygon_type : String) : SubmitStep TextTo3DParams :=
  SubmitStep.networkCall "SubmitHunyuanTo3DProJob"
    { Prompt := prompt
      EnablePBR := enable_pbr
      FaceCount := face_count
      GenerateType := generate_type
      PolygonType := if generate_type = "LowPoly" then some polygon_type else none }

/-- Embedding of `TencentCloudAPIClient.image_to_3d` (`api_client.py` 115-165)
up to the remote call. -/
def image_to_3d (image_data : String) (enable_pbr : Bool) (face_count : Int)
    (generate_type : String) (polygon_type : String) : SubmitStep ImageTo3DParams :=
  SubmitStep.networkCall "SubmitHunyuanTo3DProJob"
    { ImageBase64 := image_data
      EnablePBR := enable_pbr
      FaceCount := face_count
      GenerateType := generate_type
      PolygonType := if generate_type = "LowPoly" then some polygon_type else none }

/-- An `INT` input declaration of a ComfyUI node (`INPUT_TYPES`). -/
structure IntInputSpec where
  default : Int
  min : Int
  max : Int
  step : Int
deriving DecidableEq, Repr

/-- The `face_count` input declaration of `HunyuanTextTo3DNode`
(`nodes.py` 86-91). -/
def textNode_face_count_spec : IntInputSpec :=
  { default := 500000, min := 40000, max := 1500000, step := 10000 }

/-- The `face_count` input declaration of `HunyuanImageTo3DNode`
(`nodes.py` 252-257). -/
def imageNode_face_count_spec : IntInputSpec :=
  { default := 500000, min := 40000, max := 1500000, step := 10000 }

/-- The `face_count` input declaration of `HunyuanBatchImageTo3DNode`
(`batch_nodes.py` line 44). -/
def batchNode_face_count_spec : IntInputSpec :=
  { default := 500000, min := 40000, max := 1500000, step := 10000 }

/-! ## The polling loop (`wait_for_task_completion`)

Embedding of `TencentCloudAPIClient.wait_for_task_completion`
(`api_client.py` 227-286).  The sequence of remote poll responses is a
parameter `query : Nat → TaskResult` (the result of the `k`-th
`query_task_status` call); `await asyncio.sleep(poll_interval)` advances the
`elapsed_time` counter by `poll_interval`, so the elapsed counter of the
`k`-th iteration is `k * poll_interval` and the loop is structural recursion
on a fuel that the top-level wrapper sets to `max_wait_time` (sufficient
whenever `poll_interval ≥ 1`; the proofs show the fuel-exhaustion branch is
then unreachable).  Each invocation of the `progress_callback` is recorded as
a `PollTick` carrying the status string of the poll that produced it and the
percentage passed to the callback; the display-only `status_msg` text is not
modelled. -/

/-- One `progress_callback(progress, status_msg)` invocation: the status of
the poll that produced it and the percentage passed. -/
structure PollTick where
  status : String
  progress : ℚ
deriving DecidableEq, Repr

/-- How `wait_for_task_completion` ends: returning the final result
dictionary, raising on a `FAIL` status, raising the timeout exception, or
(model artefact, proved unreachable for positive `poll_interval`) running out
of fuel. -/
inductive WaitOutcome where
  | done (r : TaskResult)
  | jobFailed (msg : String)
  | timeout (msg : String)
  | fuelExhausted
deriving DecidableEq, Repr

/-- Observable run of `wait_for_task_completion`: its outcome, the number of
`query_task_status` calls performed, the final value of the `elapsed_time`
counter, and the trace of progress-callback invocations. -/
structure WaitRun where
  outcome : WaitOutcome
  polls : Nat
  elapsed : Nat
  trace : List PollTick
deriving DecidableEq, Repr

/-- The loop body of `wait_for_task_completion` (`api_client.py` 246-286).
`i` is the number of completed iterations, so `elapsed_time = i * poll`. -/
def wait_loop (query : Nat → TaskResult) (max_wait poll : Nat) :
    Nat → Nat → Bool → Nat → WaitRun
  | 0, i, _, _ =>
    if i * poll < max_wait then
      { outcome := .fuelExhausted, polls := i, elapsed := i * poll, trace := [] }
    else
      { outcome := .timeout ("Task did not complete within " ++ pyIntStr max_wait ++ " seconds")
        polls := i, elapsed := i * poll, trace := [] }
  | fuel + 1, i, started_running, run_start_time =>
    let elapsed := i * poll
    if elapsed < max_wait then
      let r := query i
      let status := r.status
      let progress : ℚ :=
        if status = "WAIT" then
          min 10 (((elapsed : ℚ) / (max_wait : ℚ)) * 10)
        else if status = "RUN" then
          let run_start := if started_running then run_start_time else elapsed
          let run_time : Nat := elapsed - run_start
          10 + min 85 (((run_time : ℚ) / 150) * 85)
        else 95
      let started' := if status = "RUN" then true else started_running
      let run_start' :=
        if status = "RUN" && !started_running then elapsed else run_start_time
      if status = "DONE" then
        { outcome := .done r, polls := i + 1, elapsed := elapsed
          trace := [⟨status, progress⟩, ⟨status, 100⟩] }
      else if status = "FAIL" then
        { outcome := .jobFailed ("Task failed: " ++ r.error_code ++ " - " ++ r.error_message)
          polls := i + 1, elapsed := elapsed
          trace := [⟨status, progress⟩] }
      else
        let rest := wait_loop query max_wait poll fuel (i + 1) started' run_start'
        { rest with trace := ⟨status, progress⟩ :: rest.trace }
    else
      { outcome := .timeout ("Task did not complete within " ++ pyIntStr max_wait ++ " seconds")
        polls := i, elapsed := i * poll, trace := [] }

/-- Embedding of `wait_for_task_completion` with the remote poll responses as
the `query` parameter. -/
def wait_for_task_completion (query : Nat → TaskResult) (max_wait poll : Nat) : WaitRun :=
  wait_loop query max_wait poll max_wait 0 false 0

/-- The progress percentages reported while the polled status was `"WAIT"`,
in order. -/
def WaitRun.waitProgresses (run : WaitRun) : List ℚ :=
  (run.trace.filter (fun t => t.status = "WAIT")).map (fun t => t.progress)

/-- The progress percentages reported while the polled status was `"RUN"`,
in order. -/
def WaitRun.runProgresses (run : WaitRun) : List ℚ :=
  (run.trace.filter (fun t => t.status = "RUN")).map (fun t => t.progress)

/-- The progress formula of the `WAIT` branch at elapsed time `e`:
`min(10, (elapsed_time / max_wait_time) * 10)`. -/
def waitP (max_wait e : Nat) : ℚ :=
  min 10 (((e : ℚ) / (max_wait : ℚ)) * 10)

/-- The progress formula of the `RUN` branch at elapsed time `e` with run
start `rs`: `10 + min(85, (run_time / 150) * 85)`. -/
def runP (e rs : Nat) : ℚ :=
  10 + min 85 ((((e - rs : Nat) : ℚ) / 150) * 85)

/-! ## Asset download (`download_model`)

Embedding of `TencentCloudAPIClient.download_model` (`api_client.py`
288-314).  The HTTP response is modelled by its status code and the outcome
of `await response.read()` (either the body bytes or the message of a raised
transport error).  The local filesystem is a finite map from paths to byte
lists plus the set of existing directories; `open(output_path, 'wb')`
truncates/creates the file when its parent directory exists and raises
otherwise, and the body is read after the file has been opened, exactly as in
the source (`f.write(await response.read())`). -/

/-- A filesystem: existing directories and files with their contents. -/
structure FS where
  dirs : List String
  files : List (String × List Nat)
deriving DecidableEq, Repr

/-- Write (create or truncate-and-replace) a file. -/
def FS.setFile (fs : FS) (p : String) (content : List Nat) : FS :=
  { fs with files := (p, content) :: fs.files.filter (fun q => q.1 ≠ p) }

/-- Contents of the file at `p`, if present. -/
def FS.getFile (fs : FS) (p : String) : Option (List Nat) :=
  (fs.files.find? (fun q => q.1 = p)).map (fun q => q.2)

/-- Characters before the last `/` of the list, or `none` when there is no
`/`. -/
def beforeLastSlash : List Char → Option (List Char)
  | [] => none
  | c :: rest =>
    match beforeLastSlash rest with
    | some tail => some (c :: tail)
    | none => if c = '/' then some [] else none

/-- Directory part of a path (`os.path` semantics for `/`-separated paths):
everything before the last `/`, or `""` (the current directory) when the path
has no separator. -/
def dirname (p : String) : String :=
  match beforeLastSlash p.data with
  | some pre => String.mk pre
  | none => ""

/-- Whether directory `d` exists (the current directory `""` always does). -/
def FS.dirExists (fs : FS) (d : String) : Bool :=
  d = "" || fs.dirs.contains d

/-- Embedding of `download_model`: returns the filesystem after the call and
either the saved path or the raised exception's message. -/
def download_model (status : Nat) (readResult : Except String (List Nat))
    (output_path : String) (fs : FS) : FS × Except String String :=
  if status = 200 then
    if fs.dirExists (dirname output_path) then
      let fs1 := fs.setFile output_path []
      match readResult with
      | .error e => (fs1, .error e)
      | .ok body => (fs1.setFile output_path body, .ok output_path)
    else
      (fs, .error ("FileNotFoundError: " ++ output_path))
  else
    (fs, .error ("Failed to download model: HTTP " ++ pyIntStr status))

/-! ## File manager (`file_manager.py`)

`generate_filename` (lines 53-74) and `cleanup_old_files` (lines 148-201).
`hashlib.md5(prompt.encode()).hexdigest()` is an external library call and is
a parameter `md5hex : String → String` of the embedding; `time.time()` is the
`timestamp`/`now` parameter.  The regex character class `\w` is modelled by
`Char.isAlphanum`-or-underscore. -/

/-- A regex `\w` character (word character). -/
def isWordChar (c : Char) : Bool := c.isAlphanum || c = '_'

/-- A character of the regex class `[-\s]` (hyphen or whitespace). -/
def isSepChar (c : Char) : Bool := c.isWhitespace || c = '-'

/-- Python `str.strip()`: drop leading and trailing whitespace. -/
def pyStrip (l : List Char) : List Char :=
  ((l.dropWhile Char.isWhitespace).reverse.dropWhile Char.isWhitespace).reverse

/-- `re.sub(r'[-\s]+', '_', ·)`: replace every maximal run of hyphens or
whitespace by a single underscore.  Structural fuel (adequate for
`fuel ≥ l.length`). -/
def collapseRunsAux : Nat → List Char → List Char
  | 0, _ => []
  | _ + 1, [] => []
  | fuel + 1, c :: rest =>
    if isSepChar c then '_' :: collapseRunsAux fuel (rest.dropWhile isSepChar)
    else c :: collapseRunsAux fuel rest

/-- `re.sub(r'[-\s]+', '_', ·)` on a character list. -/
def collapseRuns (l : List Char) : List Char := collapseRunsAux l.length l

/-- The sanitized prompt slug built by `generate_filename`:
`re.sub(r'[^\w\s-]', '', prompt.strip())`, then collapse `[-\s]+` runs to
`'_'`, then truncate to 50 characters. -/
def sanitize_prompt (prompt : String) : String :=
  let clean1 := (pyStrip prompt.data).filter
    (fun c => isWordChar c || c.isWhitespace || c = '-')
  String.mk ((collapseRuns clean1).take 50)

/-- Embedding of `FileManager.generate_filename`:
`f"{clean_prompt}_{prompt_hash}_{timestamp}.{extension}"` where
`prompt_hash = md5(prompt).hexdigest()[:8]` (Python string slicing is by
character, hence the character-list `take`). -/
def generate_filename (md5hex : String → String) (timestamp : Nat)
    (prompt : String) (extension : String) : String :=
  sanitize_prompt prompt ++ "_" ++ String.mk ((md5hex prompt).data.take 8) ++ "_" ++
    pyIntStr timestamp ++ "." ++ extension

/-- The enumerated deletion pass of `cleanup_old_files` over the
newest-first-sorted file list: `i` is the enumeration index; an entry is
deleted when `now - mtime > max_age_seconds` or `i ≥ max_files`.  Returns the
deletion count and the deleted paths. -/
def cleanupAux (now max_age_seconds : Int) (max_files : Nat) :
    Nat → List (String × Int) → Nat × List String
  | _, [] => (0, [])
  | i, (fp, mt) :: rest =>
    let r := cleanupAux now max_age_seconds max_files (i + 1) rest
    if now - mt > max_age_seconds ∨ max_files ≤ i then (r.1 + 1, fp :: r.2)
    else r

/-- Embedding of `FileManager.cleanup_old_files`: the directory listing is
the `files` parameter (path, modification time); the entries are sorted by
modification time newest first and swept by `cleanupAux`.  Every
`delete_file` call succeeds in the model, so the returned count is the number
of deleted paths. -/
def cleanup_old_files (now : Int) (max_age_hours : Int) (max_files : Nat)
    (files : List (String × Int)) : Nat × List String :=
  let sorted := files.mergeSort (fun a b => b.2 ≤ a.2)
  cleanupAux now (max_age_hours * 3600) max_files 0 sorted

/-! ## Batch driver (`batch_nodes.py`)

`_process_single_image` (lines 118-174) runs one item's
convert → submit → wait → select-GLB → download pipeline inside a
`try/except` that converts any raised exception into a failure triple; each
fallible step is an `Except String` parameter of the embedding.
`batch_generate` (lines 176-287) runs the items sequentially, collects the
result triples and counters, and builds the newline-joined success paths. -/

deriving instance DecidableEq for Except

/-- The per-item inputs and step outcomes consumed by
`_process_single_image`: the item's path and stem, and the outcome of each
fallible step (`.error msg` models a raised exception with message `msg`). -/
structure ItemRun where
  path : String
  stem : String
  convert : Except String String
  submit : Except String String
  wait : Except String TaskResult
  download : Except String Unit
deriving DecidableEq, Repr

/-- The GLB URL selected from a wait result: the `url` of the first
`result_urls` entry whose `type` is `"GLB"`, or `""` when there is none
(Python's `glb_url = None` and `glb_url = ""` both fail the truthiness test
`if not glb_url`). -/
def glb_url_of (result : TaskResult) : String :=
  match result.result_urls.find? (fun f => f.type = "GLB") with
  | some f => f.url
  | none => ""

/-- Embedding of `_process_single_image`: returns the `(path, success,
message)` triple.  Every exception raised by a step is caught and becomes a
failure triple, so the function is total. -/
def process_single_image (output_dir output_folder : String) (item : ItemRun) :
    String × Bool × String :=
  match item.convert with
  | .error e => (item.path, false, e)
  | .ok _ =>
    match item.submit with
    | .error e => (item.path, false, e)
    | .ok job_id =>
      if job_id = "" then (item.path, false, "Failed to get JobId")
      else
        match item.wait with
        | .error e => (item.path, false, e)
        | .ok result =>
          if glb_url_of result = "" then (item.path, false, "No GLB file in results")
          else
            match item.download with
            | .error e => (item.path, false, e)
            | .ok _ =>
              (output_dir ++ "/" ++ output_folder ++ "/" ++ (item.stem ++ "_3d.glb"),
                true, "Success")

/-- The sequential processing loop of `batch_generate`: result triples in
input order together with the `successful` and `failed` counters. -/
def batch_loop (output_dir output_folder : String) :
    List ItemRun → List (String × Bool × String) × Nat × Nat
  | [] => ([], 0, 0)
  | item :: rest =>
    let r := process_single_image output_dir output_folder item
    let rec' := batch_loop output_dir output_folder rest
    (r :: rec'.1, if r.2.1 then rec'.2.1 + 1 else rec'.2.1,
      if r.2.1 then rec'.2.2 else rec'.2.2 + 1)

/-- The aggregate report built by `batch_generate`: the summary's success,
failure and total counts, the per-item result triples, the successful model
paths, and the newline-joined `paths_string` output. -/
structure BatchReport where
  summary_successful : Nat
  summary_failed : Nat
  summary_total : Nat
  results : List (String × Bool × String)
  model_paths : List String
  paths_string : String
deriving DecidableEq, Repr

/-- Embedding of `batch_generate`: an empty item list returns the early
no-images error; otherwise every item is processed and the report built.
`paths_string` mirrors `"\n".join(model_paths) if model_paths else ""`. -/
def batch_generate (output_dir output_folder : String) (items : List ItemRun) :
    Except String BatchReport :=
  if items = [] then .error "No images found"
  else
    let looped := batch_loop output_dir output_folder items
    let model_paths := looped.1.filterMap (fun r => if r.2.1 then some r.1 else none)
    .ok { summary_successful := looped.2.1
          summary_failed := looped.2.2
          summary_total := items.length
          results := looped.1
          model_paths := model_paths
          paths_string := if model_paths = [] then "" else String.intercalate "\n" model_paths }

/-- An item on which `_process_single_image` reaches the success return:
every step succeeds, the job id is non-empty, and a GLB entry with a
non-empty URL is present in the wait result. -/
def ItemRun.succeeds (it : ItemRun) : Prop :=
  (∃ b, it.convert = .ok b) ∧ (∃ j, it.submit = .ok j ∧ j ≠ "") ∧
    (∃ r, it.wait = .ok r ∧ glb_url_of r ≠ "") ∧ it.download = .ok ()

/-! ## Concrete instances used by witnesses and counterexamples -/

/-- A remote that answers `DONE` (with no result files) on every poll. -/
def exampleDoneQuery : Nat → TaskResult :=
  fun _ => { status := "DONE", result_urls := [], error_code := "", error_message := "" }

/-- A remote that answers `WAIT` on every poll. -/
def exampleWaitQuery : Nat → TaskResult :=
  fun _ => { status := "WAIT", result_urls := [], error_code := "", error_message := "" }

/-- A remote response with status `DONE` and one complete result file. -/
def exampleDoneResponse : RemoteResponse :=
  { statusField := some "DONE", errorCodeField := none, errorMessageField := none
    resultFile3Ds := some [{ urlField := some "http://x/model.glb"
                             typeField := some "GLB", previewField := none }] }

/-- A batch item whose submission step raises `"boom"`. -/
def exampleFailingItem : ItemRun :=
  { path := "input/img.png", stem := "img", convert := .ok "b64"
    submit := .error "boom", wait := .error "unused", download := .ok () }

/-- A stand-in for `hashlib.md5(·).hexdigest()` used by witnesses: a fixed
32-character hex string. -/
def exampleMd5 : String → String := fun _ => "0123456789abcdef0123456789abcdef"

/-- A batch item that succeeds end to end. -/
def exampleGoodItem : ItemRun :=
  { path := "input/ok.png", stem := "ok", convert := .ok "b64"
    submit := .ok "job-1"
    wait := .ok { status := "DONE"
                  result_urls := [{ url := "http://x/m.glb", type := "GLB", preview_url := "" }]
                  error_code := "", error_message := "" }
    download := .ok () }

end Hunyuan3D

/-! # Theorems -/

namespace Hunyuan3D

/-! ## Decimal rendering: auxiliary lemmas -/

/-- `charDigit` inverts `digitChar` on actual digits. -/
theorem charDigit_digitChar {d : Nat} (h : d < 10) : charDigit (digitChar d) = d := by
  interval_cases d <;> rfl

/-- Unfolding `digitsVal` on a cons. -/
theorem digitsVal_cons (c : Char) (l : List Char) :
    digitsVal (c :: l) = digitsVal l * 10 + charDigit c := rfl

/-- With adequate fuel, `digitsVal` recovers the rendered number. -/
theorem digitsVal_pyIntStrAux : ∀ fuel n, n ≤ fuel → digitsVal (pyIntStrAux fuel n) = n := by
  intro fuel
  induction fuel with
  | zero =>
    intro n hn
    interval_cases n
    rfl
  | succ fuel ih =>
    intro n hn
    match n with
    | 0 => rfl
    | m + 1 =>
      rw [pyIntStrAux, digitsVal_cons]
      have hlt : (m + 1) / 10 < m + 1 := Nat.div_lt_self (by omega) (by omega)
      rw [ih ((m + 1) / 10) (by omega), charDigit_digitChar (Nat.mod_lt _ (by omega))]
      omega

/-- `pyIntStr` is injective: distinct nonnegative integers render to distinct
strings. -/
theorem pyIntStr_inj : ∀ {m n : Nat}, pyIntStr m = pyIntStr n → m = n := by
  intro m n h
  unfold pyIntStr at h
  by_cases hm : m = 0 <;> by_cases hn : n = 0
  · omega
  · rw [if_pos hm, if_neg hn] at h
    have hd := congrArg String.data h
    have hrev : pyIntStrAux n n = ['0'] := by
      have : (pyIntStrAux n n).reverse = ['0'] := hd.symm
      have := congrArg List.reverse this
      simpa using this
    have := digitsVal_pyIntStrAux n n le_rfl
    rw [hrev] at this
    simp [digitsVal, charDigit] at this
    omega
  · rw [if_neg hm, if_pos hn] at h
    have hd := congrArg String.data h
    have hrev : pyIntStrAux m m = ['0'] := by
      have : (pyIntStrAux m m).reverse = ['0'] := hd
      have := congrArg List.reverse this
      simpa using this
    have := digitsVal_pyIntStrAux m m le_rfl
    rw [hrev] at this
    simp [digitsVal, charDigit] at this
    omega
  · rw [if_neg hm, if_neg hn] at h
    have hd := congrArg String.data h
    simp only [String.mk] at hd
    have hlist : pyIntStrAux m m = pyIntStrAux n n := by
      have := congrArg List.reverse hd
      simpa using this
    have h1 := digitsVal_pyIntStrAux m m le_rfl
    have h2 := digitsVal_pyIntStrAux n n le_rfl
    rw [hlist] at h1
    omega

/-! ## Filename generation (claim C8) -/

/-- Characters produced by `collapseRunsAux` from a word/whitespace/hyphen
list are word characters or underscores. -/
theorem collapseRunsAux_chars :
    ∀ fuel (l : List Char),
      (∀ c ∈ l, isWordChar c = true ∨ c.isWhitespace = true ∨ c = '-') →
      ∀ c ∈ collapseRunsAux fuel l, isWordChar c = true ∨ c = '_' := by
  intro fuel
  induction fuel with
  | zero =>
    intro l _ c hc
    simp [collapseRunsAux] at hc
  | succ fuel ih =>
    intro l hl c hc
    match l with
    | [] => simp [collapseRunsAux] at hc
    | a :: rest =>
      rw [collapseRunsAux] at hc
      by_cases ha : isSepChar a = true
      · rw [if_pos ha] at hc
        rcases List.mem_cons.mp hc with h | h
        · right; exact h
        · exact ih _ (fun d hd => hl d (List.mem_cons_of_mem _
            ((List.dropWhile_sublist _).subset hd))) c h
      · rw [if_neg ha] at hc
        rcases List.mem_cons.mp hc with h | h
        · subst h
          rcases hl c (List.mem_cons_self _ _) with hw | hws | hh
          · exact Or.inl hw
          · exact absurd (by simp [isSepChar, hws]) ha
          · exact absurd (by simp [isSepChar, hh]) ha
        · exact ih _ (fun d hd => hl d (List.mem_cons_of_mem _ hd)) c h

/-- The sanitized slug is at most 50 characters long. -/
theorem sanitize_prompt_length (p : String) : (sanitize_prompt p).length ≤ 50 := by
  have : (sanitize_prompt p).length = ((collapseRuns ((pyStrip p.data).filter
      (fun c => isWordChar c || c.isWhitespace || c = '-'))).take 50).length := rfl
  rw [this, List.length_take]
  omega

/-- Every character of the sanitized slug is a word character or an
underscore. -/
theorem sanitize_prompt_chars (p : String) :
    ∀ c ∈ (sanitize_prompt p).data, isWordChar c = true ∨ c = '_' := by
  intro c hc
  have hc' : c ∈ collapseRuns ((pyStrip p.data).filter
      (fun c => isWordChar c || c.isWhitespace || c = '-')) :=
    List.mem_of_mem_take hc
  refine collapseRunsAux_chars _ _ ?_ c hc'
  intro d hd
  have := (List.mem_filter.mp hd).2
  simpa [Bool.or_eq_true, decide_eq_true_eq, or_assoc] using this

/-- Claim C8: `generate_filename` is deterministic in (prompt, timestamp,
extension); the same prompt and extension at two different timestamps yield
different filenames; and the output is the sanitized slug (at most 50
characters, made of word characters and underscores) followed by the
8-character prompt hash, the unix timestamp and the extension. -/
theorem generate_filename_spec (md5hex : String → String) (t₁ t₂ : Nat)
    (prompt extension : String) :
    generate_filename md5hex t₁ prompt extension =
      generate_filename md5hex t₁ prompt extension ∧
    (t₁ ≠ t₂ → generate_filename md5hex t₁ prompt extension ≠
      generate_filename md5hex t₂ prompt extension) ∧
    generate_filename md5hex t₁ prompt extension =
      sanitize_prompt prompt ++ "_" ++ String.mk ((md5hex prompt).data.take 8) ++ "_" ++
        pyIntStr t₁ ++ "." ++ extension ∧
    (sanitize_prompt prompt).length ≤ 50 ∧
    (∀ c ∈ (sanitize_prompt prompt).data, isWordChar c = true ∨ c = '_') ∧
    (8 ≤ (md5hex prompt).length → (String.mk ((md5hex prompt).data.take 8)).length = 8) := by
  refine ⟨rfl, ?_, rfl, sanitize_prompt_length prompt, sanitize_prompt_chars prompt, ?_⟩
  · intro hne heq
    apply hne
    have hd := congrArg String.data heq
    simp only [generate_filename, String.data_append, List.append_assoc] at hd
    have h1 := List.append_cancel_left hd
    have h2 := List.append_cancel_left h1
    have h3 := List.append_cancel_left h2
    have h4 := List.append_cancel_left h3
    have h5 := List.append_cancel_right h4
    exact pyIntStr_inj (String.ext h5)
  · intro h8
    have : (String.mk ((md5hex prompt).data.take 8)).length =
        ((md5hex prompt).data.take 8).length := rfl
    rw [this, List.length_take]
    have : (md5hex prompt).length = (md5hex prompt).data.length := rfl
    omega

/-- Witness for claim C8 at a concrete prompt and two concrete timestamps. -/
theorem generate_filename_spec_witness :
    generate_filename exampleMd5 1600000000 "A cute robot toy" "glb" ≠
      generate_filename exampleMd5 1600000001 "A cute robot toy" "glb" :=
  (generate_filename_spec exampleMd5 1600000000 1600000001
    "A cute robot toy" "glb").2.1 (by decide)

/-! ## Submission (claims C4 and C5) -/

/-- Counterexample to claim C4 as stated: with the out-of-range
`face_count = 39999`, both `text_to_3d` and `image_to_3d` proceed straight to
the network call — neither raises a client-side validation error before the
remote submission. -/
theorem face_count_validation_counterexample :
    ((39999 : Int) < 40000) ∧
    (text_to_3d "A cute robot toy" false 39999 "Normal" "triangle").isValidationError
      = false ∧
    (image_to_3d "aW1nZGF0YQ==" false 39999 "Normal" "triangle").isValidationError
      = false := by
  decide

/-- Claim C4 (amended): the API client performs no face-count validation —
for every `face_count` (in range or not) `text_to_3d` and `image_to_3d`
immediately issue the network submission with `FaceCount` forwarded
unchanged; the only range enforcement in the repository is the node input
declarations, which bound `face_count` to `[40000, 1500000]` in all three
generation nodes. -/
theorem face_count_forwarded_unvalidated (prompt image : String) (pbr : Bool)
    (fc : Int) (gt pt : String) :
    (∃ p : TextTo3DParams, text_to_3d prompt pbr fc gt pt =
        SubmitStep.networkCall "SubmitHunyuanTo3DProJob" p ∧ p.FaceCount = fc) ∧
    (∃ q : ImageTo3DParams, image_to_3d image pbr fc gt pt =
        SubmitStep.networkCall "SubmitHunyuanTo3DProJob" q ∧ q.FaceCount = fc) ∧
    textNode_face_count_spec.min = 40000 ∧ textNode_face_count_spec.max = 1500000 ∧
    imageNode_face_count_spec.min = 40000 ∧ imageNode_face_count_spec.max = 1500000 ∧
    batchNode_face_count_spec.min = 40000 ∧ batchNode_face_count_spec.max = 1500000 :=
  ⟨⟨_, rfl, rfl⟩, ⟨_, rfl, rfl⟩, rfl, rfl, rfl, rfl, rfl, rfl⟩

/-- Claim C5: in both submission payloads the key `PolygonType` is present if
and only if `generate_type = "LowPoly"`, and when present it carries the
caller-supplied polygon type. -/
theorem polygon_type_iff_lowpoly :
    (∀ (prompt : String) (pbr : Bool) (fc : Int) (gt pt : String) (p : TextTo3DParams),
      text_to_3d prompt pbr fc gt pt = SubmitStep.networkCall "SubmitHunyuanTo3DProJob" p →
      (p.PolygonType.isSome = true ↔ gt = "LowPoly") ∧
      (gt = "LowPoly" → p.PolygonType = some pt)) ∧
    (∀ (image : String) (pbr : Bool) (fc : Int) (gt pt : String) (q : ImageTo3DParams),
      image_to_3d image pbr fc gt pt = SubmitStep.networkCall "SubmitHunyuanTo3DProJob" q →
      (q.PolygonType.isSome = true ↔ gt = "LowPoly") ∧
      (gt = "LowPoly" → q.PolygonType = some pt)) := by
  constructor
  · intro prompt pbr fc gt pt p hp
    rw [text_to_3d] at hp
    injection hp with h1 h2
    subst h2
    by_cases hgt : gt = "LowPoly" <;> simp [hgt]
  · intro image pbr fc gt pt q hq
    rw [image_to_3d] at hq
    injection hq with h1 h2
    subst h2
    by_cases hgt : gt = "LowPoly" <;> simp [hgt]

/-- Witness for claim C5 at a concrete LowPoly submission. -/
theorem polygon_type_iff_lowpoly_witness :
    ({ Prompt := "A cute robot toy", EnablePBR := false, FaceCount := 500000,
       GenerateType := "LowPoly", PolygonType := some "triangle" } :
        TextTo3DParams).PolygonType = some "triangle" :=
  (polygon_type_iff_lowpoly.1 "A cute robot toy" false 500000 "LowPoly" "triangle"
    _ rfl).2 rfl

/-! ## Status query (claim C9) -/

/-- Claim C9: `query_task_status` returns a non-empty `result_urls` only when
the status is `"DONE"`, and every entry of `result_urls` is built from one
remote `ResultFile3Ds` element with each of its three fields defaulting to
`""` when absent. -/
theorem query_task_status_result_urls_spec (resp : RemoteResponse) :
    ((query_task_status resp).result_urls ≠ [] →
      (query_task_status resp).status = "DONE") ∧
    (∀ e ∈ (query_task_status resp).result_urls, ∃ files f,
      resp.resultFile3Ds = some files ∧ f ∈ files ∧
      e.url = f.urlField.getD "" ∧ e.type = f.typeField.getD "" ∧
      e.preview_url = f.previewField.getD "") := by
  obtain ⟨st, ec, em, rf⟩ := resp
  cases rf with
  | none =>
    refine ⟨fun hne => absurd rfl hne, fun e he => ?_⟩
    simp [query_task_status] at he
  | some files =>
    by_cases hst : st.getD "" = "DONE"
    · constructor
      · intro _
        exact hst
      · intro e he
        have he' : e ∈ files.map (fun f =>
            ({ url := f.urlField.getD "", type := f.typeField.getD ""
               preview_url := f.previewField.getD "" } : ResultUrl)) := by
          simpa [query_task_status, hst] using he
        obtain ⟨f, hf, hfe⟩ := List.mem_map.mp he'
        subst hfe
        exact ⟨files, f, rfl, hf, rfl, rfl, rfl⟩
    · have hempty : (query_task_status ⟨st, ec, em, some files⟩).result_urls = [] := by
        simp [query_task_status, hst]
      refine ⟨fun hne => absurd hempty hne, fun e he => ?_⟩
      rw [hempty] at he
      simp at he

/-- Witness for claim C9 at a concrete `DONE` response carrying one result
file. -/
theorem query_task_status_result_urls_spec_witness :
    (query_task_status exampleDoneResponse).status = "DONE" :=
  (query_task_status_result_urls_spec exampleDoneResponse).1 (by decide)

/-! ## Download (claim C3) -/

/-- Reading back a freshly written file. -/
theorem FS.getFile_setFile (fs : FS) (p : String) (c : List Nat) :
    (fs.setFile p c).getFile p = some c := by
  simp [FS.getFile, FS.setFile, List.find?]

/-- Writing a file does not change the directory set. -/
theorem FS.dirs_setFile (fs : FS) (p : String) (c : List Nat) :
    (fs.setFile p c).dirs = fs.dirs := rfl

/-- Counterexample to claim C3 as stated: with HTTP status 200 but a
body-read failure (`response.read()` raising after `open(output_path, 'wb')`
has already truncated/created the file), `download_model` fails and an empty
file remains at the destination path — the partial file is not cleaned up. -/
theorem download_model_counterexample :
    (download_model 200 (Except.error "ConnectionError") "out/m.glb"
        { dirs := ["out"], files := [] }).2 = Except.error "ConnectionError" ∧
    (download_model 200 (Except.error "ConnectionError") "out/m.glb"
        { dirs := ["out"], files := [] }).1.getFile "out/m.glb" = some [] := by
  constructor <;> rfl

/-- Claim C3 (amended): `download_model` fails on a non-200 HTTP status with
the `Failed to download model` message and leaves the filesystem unchanged;
it never creates directories (so it fails when the destination's parent
directory is missing, instead of creating it); on a 200 status with the
parent directory present it returns the destination path after writing the
full body; and on a body-read failure after a 200 status it fails and leaves
an empty file behind at the destination path. -/
theorem download_model_spec (status : Nat) (rr : Except String (List Nat))
    (path : String) (fs : FS) :
    (download_model status rr path fs).1.dirs = fs.dirs ∧
    (status ≠ 200 → download_model status rr path fs =
      (fs, Except.error ("Failed to download model: HTTP " ++ pyIntStr status))) ∧
    (status = 200 → fs.dirExists (dirname path) = false →
      download_model status rr path fs = (fs, Except.error ("FileNotFoundError: " ++ path))) ∧
    (∀ body, status = 200 → fs.dirExists (dirname path) = true → rr = Except.ok body →
      (download_model status rr path fs).2 = Except.ok path ∧
      (download_model status rr path fs).1.getFile path = some body) ∧
    (∀ e, status = 200 → fs.dirExists (dirname path) = true → rr = Except.error e →
      (download_model status rr path fs).2 = Except.error e ∧
      (download_model status rr path fs).1.getFile path = some []) := by
  refine ⟨?_, ?_, ?_, ?_, ?_⟩
  · by_cases hst : status = 200
    · by_cases hdir : fs.dirExists (dirname path) = true
      · cases rr <;> simp [download_model, hst, hdir, FS.setFile]
      · have hdir' : fs.dirExists (dirname path) = false := by simpa using hdir
        simp [download_model, hst, hdir']
    · simp [download_model, hst]
  · intro h
    simp [download_model, h]
  · intro hst hdir
    subst hst
    simp [download_model, hdir]
  · intro body hst hdir hb
    subst hst
    subst hb
    refine ⟨by simp [download_model, hdir], ?_⟩
    have hred : (download_model 200 (Except.ok body) path fs).1 =
        (fs.setFile path []).setFile path body := by
      simp [download_model, hdir]
    rw [hred, FS.getFile_setFile]
  · intro e hst hdir he
    subst hst
    subst he
    refine ⟨by simp [download_model, hdir], ?_⟩
    have hred : (download_model 200 (Except.error e) path fs).1 =
        fs.setFile path [] := by
      simp [download_model, hdir]
    rw [hred, FS.getFile_setFile]

/-- Witness for claim C3 (amended) at the concrete read-failure input. -/
theorem download_model_spec_witness :
    (download_model 200 (Except.error "boom") "out/m.glb"
        { dirs := ["out"], files := [] }).2 = Except.error "boom" :=
  ((download_model_spec 200 (Except.error "boom") "out/m.glb"
    { dirs := ["out"], files := [] }).2.2.2.2 "boom" rfl (by rfl) rfl).1

/-! ## Cleanup (claim C7) -/

/-- The deletion count of `cleanupAux` is the number of deleted paths. -/
theorem cleanupAux_count (now ms : Int) (mf : Nat) :
    ∀ (l : List (String × Int)) (i : Nat),
      (cleanupAux now ms mf i l).1 = (cleanupAux now ms mf i l).2.length := by
  intro l
  induction l with
  | nil => intro i; rfl
  | cons hd tl ih =>
    intro i
    obtain ⟨fp, mt⟩ := hd
    rw [cleanupAux]
    by_cases hc : now - mt > ms ∨ mf ≤ i
    · simp only [if_pos hc, List.length_cons]
      rw [ih (i + 1)]
    · simp only [if_neg hc]
      exact ih (i + 1)

/-- Membership characterization of the paths deleted by `cleanupAux`: a path
is deleted exactly when some enumerated entry carries it and is over-age or
at an enumeration index of at least `max_files`. -/
theorem cleanupAux_mem (now ms : Int) (mf : Nat) :
    ∀ (l : List (String × Int)) (i : Nat) (p : String),
      p ∈ (cleanupAux now ms mf i l).2 ↔
        ∃ j mt, l[j]? = some (p, mt) ∧ (now - mt > ms ∨ mf ≤ i + j) := by
  intro l
  induction l with
  | nil =>
    intro i p
    simp [cleanupAux]
  | cons hd tl ih =>
    intro i p
    obtain ⟨fp, mt⟩ := hd
    rw [cleanupAux]
    by_cases hc : now - mt > ms ∨ mf ≤ i
    · simp only [if_pos hc, List.mem_cons, ih (i + 1)]
      constructor
      · rintro (rfl | ⟨j, mt', hj, hcond⟩)
        · exact ⟨0, mt, by simp, by omega⟩
        · exact ⟨j + 1, mt', by simpa using hj, by omega⟩
      · rintro ⟨j, mt', hj, hcond⟩
        match j with
        | 0 =>
          left
          simp only [List.getElem?_cons_zero, Option.some.injEq, Prod.mk.injEq] at hj
          exact hj.1.symm
        | j + 1 =>
          exact Or.inr ⟨j, mt', by simpa using hj, by omega⟩
    · rw [if_neg hc, ih (i + 1)]
      constructor
      · rintro ⟨j, mt', hj, hcond⟩
        exact ⟨j + 1, mt', by simpa using hj, by omega⟩
      · rintro ⟨j, mt', hj, hcond⟩
        match j with
        | 0 =>
          exfalso
          simp only [List.getElem?_cons_zero, Option.some.injEq, Prod.mk.injEq] at hj
          obtain ⟨h1, h2⟩ := hj
          subst h2
          omega
        | j + 1 =>
          exact ⟨j, mt', by simpa using hj, by omega⟩

/-- With `max_files = 0` every enumerated entry is deleted. -/
theorem cleanupAux_zero_max_files (now ms : Int) :
    ∀ (l : List (String × Int)) (i : Nat), (cleanupAux now ms 0 i l).1 = l.length := by
  intro l
  induction l with
  | nil => intro i; rfl
  | cons hd tl ih =>
    intro i
    obtain ⟨fp, mt⟩ := hd
    rw [cleanupAux]
    rw [if_pos (Or.inr (Nat.zero_le i))]
    simp [ih (i + 1)]

/-- Counterexample to claim C7 as stated: with `max_age_hours = 0` and
`max_files = 1000000`, a file whose modification time equals the current time
is NOT deleted (the age test `current_time - mtime > max_age_seconds` is
strict), so the call does not delete every file in the directory. -/
theorem cleanup_old_files_counterexample :
    (cleanup_old_files 100 0 1000000 [("a", 100)]).1 = 0 ∧
    (cleanup_old_files 100 0 1000000 [("a", 100)]).2 = [] ∧ (0 : Nat) ≠ 1 := by
  refine ⟨?_, ?_, by decide⟩ <;>
    norm_num [cleanup_old_files, cleanupAux, List.mergeSort]

/-- Claim C7 (amended): `cleanup_old_files` returns the number of deleted
files; a file is deleted exactly when its entry in the newest-first order is
strictly over-age (`now - mtime > max_age_hours * 3600`) or has rank at least
`max_files`; with `max_files = 0` every file is deleted regardless of age;
and with `max_age_hours = 0` and `max_files = 1000000` every file whose
modification time is strictly before the current time is deleted (a file with
`mtime ≥ now` survives the strict age test — this is the edge the original
claim misses). -/
theorem cleanup_old_files_spec (now mah : Int) (mf : Nat)
    (files : List (String × Int)) :
    (cleanup_old_files now mah mf files).1 = (cleanup_old_files now mah mf files).2.length ∧
    (∀ p, p ∈ (cleanup_old_files now mah mf files).2 ↔
      ∃ j mt, (files.mergeSort (fun a b => b.2 ≤ a.2))[j]? = some (p, mt) ∧
        (now - mt > mah * 3600 ∨ mf ≤ j)) ∧
    (cleanup_old_files now mah 0 files).1 = files.length ∧
    (∀ p mt, (p, mt) ∈ files → mt < now →
      p ∈ (cleanup_old_files now 0 1000000 files).2) := by
  refine ⟨cleanupAux_count _ _ _ _ 0, ?_, ?_, ?_⟩
  · intro p
    rw [cleanup_old_files, cleanupAux_mem]
    simp only [Nat.zero_add]
  · rw [cleanup_old_files, cleanupAux_zero_max_files, List.length_mergeSort]
  · intro p mt hmem hlt
    have hsorted : (p, mt) ∈ files.mergeSort (fun a b => b.2 ≤ a.2) :=
      List.mem_mergeSort.mpr hmem
    obtain ⟨j, hj⟩ := List.mem_iff_getElem?.mp hsorted
    rw [cleanup_old_files, cleanupAux_mem]
    exact ⟨j, mt, hj, Or.inl (by omega)⟩

/-- Witness for claim C7 (amended): a one-hour-old file is deleted by the
`max_age_hours = 0` cleanup. -/
theorem cleanup_old_files_spec_witness :
    "a" ∈ (cleanup_old_files 3600 0 1000000 [("a", 0)]).2 :=
  (cleanup_old_files_spec 3600 0 1000000 [("a", 0)]).2.2.2 "a" 0 (by decide) (by decide)

/-! ## Batch driver (claims C6 and C10) -/

/-- The results list of the batch loop is the per-item processing map. -/
theorem batch_loop_results (d f : String) :
    ∀ items : List ItemRun,
      (batch_loop d f items).1 = items.map (process_single_image d f) := by
  intro items
  induction items with
  | nil => rfl
  | cons it rest ih =>
    rw [batch_loop, List.map_cons]
    simp only [ih]

/-- The `successful` counter counts the success triples. -/
theorem batch_loop_succ_count (d f : String) :
    ∀ items : List ItemRun,
      (batch_loop d f items).2.1 =
        (items.map (process_single_image d f)).countP (fun r => r.2.1) := by
  intro items
  induction items with
  | nil => rfl
  | cons it rest ih =>
    rw [batch_loop, List.map_cons, List.countP_cons]
    by_cases hs : (process_single_image d f it).2.1 = true
    · simp [hs, ih]
    · simp [hs, ih]

/-- The `failed` counter counts the failure triples. -/
theorem batch_loop_fail_count (d f : String) :
    ∀ items : List ItemRun,
      (batch_loop d f items).2.2 =
        (items.map (process_single_image d f)).countP (fun r => !r.2.1) := by
  intro items
  induction items with
  | nil => rfl
  | cons it rest ih =>
    rw [batch_loop, List.map_cons, List.countP_cons]
    by_cases hs : (process_single_image d f it).2.1 = true
    · simp [hs, ih]
    · simp [hs, ih]

/-- `filterMap` with an if-some-none body is filter-then-map. -/
theorem filterMap_if_eq_filter_map :
    ∀ l : List (String × Bool × String),
      l.filterMap (fun r => if r.2.1 then some r.1 else none) =
        (l.filter (fun r => r.2.1)).map (fun r => r.1) := by
  intro l
  induction l with
  | nil => rfl
  | cons r rest ih =>
    by_cases hs : r.2.1 = true
    · simp [List.filterMap_cons, List.filter_cons, hs, ih]
    · simp [List.filterMap_cons, List.filter_cons, hs, ih]

/-- Closed form of `batch_generate` on a non-empty item list. -/
theorem batch_generate_eq (d f : String) (items : List ItemRun) (h : items ≠ []) :
    batch_generate d f items = Except.ok
      { summary_successful :=
          (items.map (process_single_image d f)).countP (fun r => r.2.1)
        summary_failed :=
          (items.map (process_single_image d f)).countP (fun r => !r.2.1)
        summary_total := items.length
        results := items.map (process_single_image d f)
        model_paths :=
          ((items.map (process_single_image d f)).filter (fun r => r.2.1)).map (fun r => r.1)
        paths_string := String.intercalate "\n"
          (((items.map (process_single_image d f)).filter (fun r => r.2.1)).map
            (fun r => r.1)) } := by
  rw [batch_generate, if_neg h]
  simp only [batch_loop_results, batch_loop_succ_count, batch_loop_fail_count,
    filterMap_if_eq_filter_map]
  by_cases hmp : ((items.map (process_single_image d f)).filter
      (fun r => r.2.1)).map (fun r => r.1) = []
  · rw [if_pos hmp, hmp]
    rfl
  · rw [if_neg hmp]

/-- An item succeeds in the sense of `ItemRun.succeeds` exactly when its
processing triple carries the success flag. -/
theorem process_succeeds_iff (d f : String) (it : ItemRun) :
    it.succeeds ↔ (process_single_image d f it).2.1 = true := by
  constructor
  · rintro ⟨⟨b, hb⟩, ⟨j, hj, hjne⟩, ⟨r, hr, hglb⟩, hd⟩
    simp [process_single_image, hb, hj, hjne, hr, hglb, hd]
  · intro h
    rcases hc : it.convert with e | b
    · simp [process_single_image, hc] at h
    · rcases hs : it.submit with e | j
      · simp [process_single_image, hc, hs] at h
      · by_cases hj : j = ""
        · simp [process_single_image, hc, hs, hj] at h
        · rcases hw : it.wait with e | r
          · simp [process_single_image, hc, hs, hj, hw] at h
          · by_cases hg : glb_url_of r = ""
            · simp [process_single_image, hc, hs, hj, hw, hg] at h
            · rcases hdl : it.download with e | u
              · simp [process_single_image, hc, hs, hj, hw, hg, hdl] at h
              · exact ⟨⟨b, hc⟩, ⟨j, hs, hj⟩, ⟨r, hw, hg⟩, hdl⟩

/-- Processing an item whose submission raised yields the failure triple with
that exception's message. -/
theorem process_failed_submit (d f : String) (it : ItemRun) (b msg : String)
    (hc : it.convert = Except.ok b) (hs : it.submit = Except.error msg) :
    process_single_image d f it = (it.path, false, msg) := by
  simp [process_single_image, hc, hs]

/-- Claim C6: when one item's submission raises and every other item
succeeds, the batch still processes all items in order, records the failing
item with the exception's message, and reports exactly N-1 successes, 1
failure and N total. -/
theorem batch_failure_isolation (d f : String) (pre post : List ItemRun)
    (bad : ItemRun) (msg b : String)
    (hpre : ∀ it ∈ pre, it.succeeds) (hpost : ∀ it ∈ post, it.succeeds)
    (hc : bad.convert = Except.ok b) (hs : bad.submit = Except.error msg) :
    ∃ report, batch_generate d f (pre ++ bad :: post) = Except.ok report ∧
      report.summary_successful = pre.length + post.length ∧
      report.summary_failed = 1 ∧
      report.summary_total = pre.length + 1 + post.length ∧
      report.results.length = pre.length + 1 + post.length ∧
      report.results[pre.length]? = some (bad.path, false, msg) ∧
      (∀ j : Nat, report.results[j]? =
        ((pre ++ bad :: post)[j]?).map (process_single_image d f)) := by
  have hne : pre ++ bad :: post ≠ [] := by simp
  rw [batch_generate_eq d f _ hne]
  have hbad := process_failed_submit d f bad b msg hc hs
  have hpre' : ∀ r ∈ pre.map (process_single_image d f), (fun r => r.2.1) r = true := by
    intro r hr
    obtain ⟨it, hit, hre⟩ := List.mem_map.mp hr
    subst hre
    exact (process_succeeds_iff d f it).mp (hpre it hit)
  have hpost' : ∀ r ∈ post.map (process_single_image d f), (fun r => r.2.1) r = true := by
    intro r hr
    obtain ⟨it, hit, hre⟩ := List.mem_map.mp hr
    subst hre
    exact (process_succeeds_iff d f it).mp (hpost it hit)
  refine ⟨_, rfl, ?_, ?_, ?_, ?_, ?_, ?_⟩
  · show ((pre ++ bad :: post).map (process_single_image d f)).countP (fun r => r.2.1) =
      pre.length + post.length
    rw [List.map_append, List.countP_append, List.map_cons, List.countP_cons]
    rw [List.countP_eq_length.mpr hpre', List.countP_eq_length.mpr hpost']
    rw [hbad]
    simp
  · show ((pre ++ bad :: post).map (process_single_image d f)).countP (fun r => !r.2.1) = 1
    rw [List.map_append, List.countP_append, List.map_cons, List.countP_cons]
    have hpre0 : (pre.map (process_single_image d f)).countP (fun r => !r.2.1) = 0 := by
      rw [List.countP_eq_zero]
      intro r hr
      simp [hpre' r hr]
    have hpost0 : (post.map (process_single_image d f)).countP (fun r => !r.2.1) = 0 := by
      rw [List.countP_eq_zero]
      intro r hr
      simp [hpost' r hr]
    rw [hpre0, hpost0, hbad]
    simp
  · show (pre ++ bad :: post).length = pre.length + 1 + post.length
    simp [List.length_append]
    omega
  · show ((pre ++ bad :: post).map (process_single_image d f)).length =
      pre.length + 1 + post.length
    simp [List.length_append]
    omega
  · show ((pre ++ bad :: post).map (process_single_image d f))[pre.length]? =
      some (bad.path, false, msg)
    rw [List.map_append, List.getElem?_append_right (by simp)]
    simp [hbad]
  · intro j
    show ((pre ++ bad :: post).map (process_single_image d f))[j]? =
      ((pre ++ bad :: post)[j]?).map (process_single_image d f)
    rw [List.getElem?_map]

/-- Witness for claim C6 at a singleton batch whose only item's submission
raises `"boom"`. -/
theorem batch_failure_isolation_witness :
    (batch_generate "output" "batch_output" [exampleFailingItem]).toOption.map
      (fun r => (r.summary_successful, r.summary_failed, r.summary_total)) =
      some (0, 1, 1) := by
  obtain ⟨rep, heq, hsucc, hfail, htot, -, -, -⟩ :=
    batch_failure_isolation "output" "batch_output" [] [] exampleFailingItem
      "boom" "b64" (by simp) (by simp) rfl rfl
  simp only [List.nil_append] at heq
  rw [heq]
  simp [Except.toOption, hsucc, hfail, htot]

/-- Claim C10: on a non-empty batch, success count plus failure count equals
the number of processed items, each item contributes exactly one result
triple in input order, and `paths_string` is the newline-join of the
successful items' paths in processing order. -/
theorem batch_generate_report_spec (d f : String) (items : List ItemRun)
    (h : items ≠ []) :
    ∃ report, batch_generate d f items = Except.ok report ∧
      report.summary_successful + report.summary_failed = report.results.length ∧
      report.results.length = items.length ∧
      report.summary_total = items.length ∧
      (∀ j : Nat, report.results[j]? = (items[j]?).map (process_single_image d f)) ∧
      report.model_paths = (report.results.filter (fun r => r.2.1)).map (fun r => r.1) ∧
      report.paths_string = String.intercalate "\n"
        ((report.results.filter (fun r => r.2.1)).map (fun r => r.1)) := by
  rw [batch_generate_eq d f items h]
  refine ⟨_, rfl, ?_, ?_, rfl, ?_, rfl, rfl⟩
  · show (items.map (process_single_image d f)).countP (fun r => r.2.1) +
      (items.map (process_single_image d f)).countP (fun r => !r.2.1) =
      (items.map (process_single_image d f)).length
    have hfun : (fun (r : String × Bool × String) => !r.2.1) =
        (fun r => decide ¬((fun r : String × Bool × String => r.2.1) r = true)) := by
      funext r
      cases hr : r.2.1 <;> simp [hr]
    rw [hfun, ← List.length_eq_countP_add_countP]
  · show ((items.map (process_single_image d f))).length = items.length
    rw [List.length_map]
  · intro j
    show ((items.map (process_single_image d f)))[j]? =
      (items[j]?).map (process_single_image d f)
    rw [List.getElem?_map]

/-- Witness for claim C10 at a singleton batch with one succeeding item. -/
theorem batch_generate_report_spec_witness :
    (batch_generate "output" "batch_output" [exampleGoodItem]).toOption.map
      BatchReport.summary_total = some 1 := by
  obtain ⟨rep, heq, -, -, htot, -, -, -⟩ :=
    batch_generate_report_spec "output" "batch_output" [exampleGoodItem] (by simp)
  rw [heq]
  simp [Except.toOption, htot]

/-! ## Polling loop step lemmas (claims C1 and C2) -/

/-- When the elapsed counter has reached `max_wait`, the loop raises the
timeout exception without a further status query. -/
theorem wait_loop_guard_false (query : Nat → TaskResult) (max_wait poll i : Nat)
    (hge : ¬ i * poll < max_wait) :
    ∀ (fuel : Nat) (s : Bool) (rs : Nat),
      wait_loop query max_wait poll fuel i s rs =
        { outcome := .timeout
            ("Task did not complete within " ++ pyIntStr max_wait ++ " seconds")
          polls := i, elapsed := i * poll, trace := [] } := by
  intro fuel s rs
  cases fuel with
  | zero => rw [wait_loop, if_neg hge]
  | succ fuel =>
    simp only [wait_loop]
    rw [if_neg hge]

/-- Loop step on a `DONE` poll: the result is returned, progress 95 and then
100 are reported. -/
theorem wait_loop_succ_done (query : Nat → TaskResult) (max_wait poll fuel i : Nat)
    (s : Bool) (rs : Nat) (hlt : i * poll < max_wait)
    (hD : (query i).status = "DONE") :
    wait_loop query max_wait poll (fuel + 1) i s rs =
      { outcome := .done (query i), polls := i + 1, elapsed := i * poll
        trace := [⟨"DONE", 95⟩, ⟨"DONE", 100⟩] } := by
  simp only [wait_loop]
  rw [if_pos hlt]
  simp [hD]

/-- Loop step on a `FAIL` poll: the job-failure exception is raised after a
single progress report of 95. -/
theorem wait_loop_succ_fail (query : Nat → TaskResult) (max_wait poll fuel i : Nat)
    (s : Bool) (rs : Nat) (hlt : i * poll < max_wait)
    (hF : (query i).status = "FAIL") :
    wait_loop query max_wait poll (fuel + 1) i s rs =
      { outcome := .jobFailed ("Task failed: " ++ (query i).error_code ++ " - " ++
          (query i).error_message)
        polls := i + 1, elapsed := i * poll
        trace := [⟨"FAIL", 95⟩] } := by
  simp only [wait_loop]
  rw [if_pos hlt]
  simp [hF]

/-- Loop step on a `WAIT` poll: one `waitP` progress report, then the loop
continues with unchanged run state. -/
theorem wait_loop_succ_wait (query : Nat → TaskResult) (max_wait poll fuel i : Nat)
    (s : Bool) (rs : Nat) (hlt : i * poll < max_wait)
    (hW : (query i).status = "WAIT") :
    wait_loop query max_wait poll (fuel + 1) i s rs =
      { outcome := (wait_loop query max_wait poll fuel (i + 1) s rs).outcome
        polls := (wait_loop query max_wait poll fuel (i + 1) s rs).polls
        elapsed := (wait_loop query max_wait poll fuel (i + 1) s rs).elapsed
        trace := ⟨"WAIT", waitP max_wait (i * poll)⟩ ::
          (wait_loop query max_wait poll fuel (i + 1) s rs).trace } := by
  simp only [wait_loop]
  rw [if_pos hlt]
  simp [hW, waitP]

/-- Loop step on a `RUN` poll: one `runP` progress report, then the loop
continues with `started_running` set and the run start fixed at the first
`RUN` poll's elapsed time. -/
theorem wait_loop_succ_run (query : Nat → TaskResult) (max_wait poll fuel i : Nat)
    (s : Bool) (rs : Nat) (hlt : i * poll < max_wait)
    (hR : (query i).status = "RUN") :
    wait_loop query max_wait poll (fuel + 1) i s rs =
      { outcome := (wait_loop query max_wait poll fuel (i + 1) true
          (if s then rs else i * poll)).outcome
        polls := (wait_loop query max_wait poll fuel (i + 1) true
          (if s then rs else i * poll)).polls
        elapsed := (wait_loop query max_wait poll fuel (i + 1) true
          (if s then rs else i * poll)).elapsed
        trace := ⟨"RUN", runP (i * poll) (if s then rs else i * poll)⟩ ::
          (wait_loop query max_wait poll fuel (i + 1) true
            (if s then rs else i * poll)).trace } := by
  cases s with
  | false =>
    simp only [wait_loop]
    rw [if_pos hlt]
    simp [hR, runP]
  | true =>
    simp only [wait_loop]
    rw [if_pos hlt]
    simp [hR, runP]

/-- Loop step on any other status (neither `WAIT`, `RUN`, `DONE` nor `FAIL`):
a progress report of 95, then the loop continues with unchanged state. -/
theorem wait_loop_succ_other (query : Nat → TaskResult) (max_wait poll fuel i : Nat)
    (s : Bool) (rs : Nat) (hlt : i * poll < max_wait)
    (hW : ¬ (query i).status = "WAIT") (hR : ¬ (query i).status = "RUN")
    (hD : ¬ (query i).status = "DONE") (hF : ¬ (query i).status = "FAIL") :
    wait_loop query max_wait poll (fuel + 1) i s rs =
      { outcome := (wait_loop query max_wait poll fuel (i + 1) s rs).outcome
        polls := (wait_loop query max_wait poll fuel (i + 1) s rs).polls
        elapsed := (wait_loop query max_wait poll fuel (i + 1) s rs).elapsed
        trace := ⟨(query i).status, 95⟩ ::
          (wait_loop query max_wait poll fuel (i + 1) s rs).trace } := by
  simp only [wait_loop]
  rw [if_pos hlt]
  simp [hW, hR, hD, hF]

/-- Classification of every run of the polling loop with adequate fuel: the
loop returns the `DONE` result of some poll, raises on a `FAIL` poll, or
raises the timeout exception once the elapsed counter reaches `max_wait`;
the elapsed counter never passes `max_wait + poll`. -/
theorem wait_loop_classify (query : Nat → TaskResult) (max_wait poll : Nat)
    (hpoll : 0 < poll) :
    ∀ (fuel i : Nat) (s : Bool) (rs : Nat),
      max_wait ≤ i * poll + fuel → i * poll < max_wait + poll →
      (∃ j, i ≤ j ∧
        (wait_loop query max_wait poll fuel i s rs).polls = j + 1 ∧
        (wait_loop query max_wait poll fuel i s rs).elapsed = j * poll ∧
        j * poll < max_wait ∧
        ((wait_loop query max_wait poll fuel i s rs).outcome = WaitOutcome.done (query j) ∧
            (query j).status = "DONE" ∨
          (wait_loop query max_wait poll fuel i s rs).outcome = WaitOutcome.jobFailed
              ("Task failed: " ++ (query j).error_code ++ " - " ++
                (query j).error_message) ∧
            (query j).status = "FAIL")) ∨
      ((wait_loop query max_wait poll fuel i s rs).outcome = WaitOutcome.timeout
          ("Task did not complete within " ++ pyIntStr max_wait ++ " seconds") ∧
        max_wait ≤ (wait_loop query max_wait poll fuel i s rs).elapsed ∧
        (wait_loop query max_wait poll fuel i s rs).elapsed < max_wait + poll ∧
        (wait_loop query max_wait poll fuel i s rs).polls * poll =
          (wait_loop query max_wait poll fuel i s rs).elapsed) := by
  intro fuel
  induction fuel with
  | zero =>
    intro i s rs hfuel hentry
    have hge : ¬ i * poll < max_wait := by omega
    right
    rw [wait_loop_guard_false query max_wait poll i hge 0 s rs]
    refine ⟨rfl, ?_, ?_, rfl⟩
    · show max_wait ≤ i * poll
      omega
    · show i * poll < max_wait + poll
      exact hentry
  | succ fuel ih =>
    intro i s rs hfuel hentry
    by_cases hlt : i * poll < max_wait
    · have hmul : (i + 1) * poll = i * poll + poll := Nat.succ_mul i poll
      have hfuel' : max_wait ≤ (i + 1) * poll + fuel := by omega
      have hentry' : (i + 1) * poll < max_wait + poll := by omega
      by_cases hD : (query i).status = "DONE"
      · left
        rw [wait_loop_succ_done query max_wait poll fuel i s rs hlt hD]
        exact ⟨i, le_rfl, rfl, rfl, hlt, Or.inl ⟨rfl, hD⟩⟩
      · by_cases hF : (query i).status = "FAIL"
        · left
          rw [wait_loop_succ_fail query max_wait poll fuel i s rs hlt hF]
          exact ⟨i, le_rfl, rfl, rfl, hlt, Or.inr ⟨rfl, hF⟩⟩
        · by_cases hW : (query i).status = "WAIT"
          · rw [wait_loop_succ_wait query max_wait poll fuel i s rs hlt hW]
            rcases ih (i + 1) s rs hfuel' hentry' with
              ⟨j, hij, h1, h2, h3, h4⟩ | ⟨h1, h2, h3, h4⟩
            · exact Or.inl ⟨j, by omega, h1, h2, h3, h4⟩
            · exact Or.inr ⟨h1, h2, h3, h4⟩
          · by_cases hR : (query i).status = "RUN"
            · rw [wait_loop_succ_run query max_wait poll fuel i s rs hlt hR]
              rcases ih (i + 1) true (if s then rs else i * poll) hfuel' hentry' with
                ⟨j, hij, h1, h2, h3, h4⟩ | ⟨h1, h2, h3, h4⟩
              · exact Or.inl ⟨j, by omega, h1, h2, h3, h4⟩
              · exact Or.inr ⟨h1, h2, h3, h4⟩
            · rw [wait_loop_succ_other query max_wait poll fuel i s rs hlt hW hR hD hF]
              rcases ih (i + 1) s rs hfuel' hentry' with
                ⟨j, hij, h1, h2, h3, h4⟩ | ⟨h1, h2, h3, h4⟩
              · exact Or.inl ⟨j, by omega, h1, h2, h3, h4⟩
              · exact Or.inr ⟨h1, h2, h3, h4⟩
    · right
      rw [wait_loop_guard_false query max_wait poll i hlt (fuel + 1) s rs]
      refine ⟨rfl, ?_, ?_, rfl⟩
      · show max_wait ≤ i * poll
        omega
      · show i * poll < max_wait + poll
        exact hentry

/-- Claim C1: for positive `max_wait_time` and `poll_interval`,
`wait_for_task_completion` terminates with its elapsed counter below
`max_wait_time + poll_interval`, performs at most
`ceil(max_wait_time / poll_interval)` status queries, and either returns the
`DONE` result of its final poll, raises the job-failure exception on a `FAIL`
poll, or raises the timeout exception once the elapsed counter has reached
`max_wait_time`. -/
theorem wait_for_task_completion_spec (query : Nat → TaskResult)
    (max_wait poll : Nat) (hmw : 0 < max_wait) (hpoll : 0 < poll) :
    (wait_for_task_completion query max_wait poll).elapsed < max_wait + poll ∧
    (wait_for_task_completion query max_wait poll).polls ≤
      (max_wait + poll - 1) / poll ∧
    ((∃ j, (wait_for_task_completion query max_wait poll).polls = j + 1 ∧
        (wait_for_task_completion query max_wait poll).outcome =
          WaitOutcome.done (query j) ∧ (query j).status = "DONE") ∨
     (∃ j, (wait_for_task_completion query max_wait poll).polls = j + 1 ∧
        (query j).status = "FAIL" ∧
        (wait_for_task_completion query max_wait poll).outcome =
          WaitOutcome.jobFailed ("Task failed: " ++ (query j).error_code ++ " - " ++
            (query j).error_message)) ∨
     ((wait_for_task_completion query max_wait poll).outcome = WaitOutcome.timeout
        ("Task did not complete within " ++ pyIntStr max_wait ++ " seconds") ∧
      max_wait ≤ (wait_for_task_completion query max_wait poll).elapsed)) := by
  have hclass := wait_loop_classify query max_wait poll hpoll max_wait 0 false 0
    (by simp) (by simp; omega)
  rw [wait_for_task_completion]
  rcases hclass with ⟨j, hij, h1, h2, h3, h4⟩ | ⟨h1, h2, h3, h4⟩
  · have hpolls : j + 1 ≤ (max_wait + poll - 1) / poll := by
      rw [Nat.le_div_iff_mul_le hpoll]
      have hmul : (j + 1) * poll = j * poll + poll := Nat.succ_mul j poll
      omega
    refine ⟨by omega, by rw [h1]; exact hpolls, ?_⟩
    rcases h4 with ⟨ha, hb⟩ | ⟨ha, hb⟩
    · exact Or.inl ⟨j, h1, ha, hb⟩
    · exact Or.inr (Or.inl ⟨j, h1, hb, ha⟩)
  · have hpolls : (wait_loop query max_wait poll max_wait 0 false 0).polls ≤
        (max_wait + poll - 1) / poll := by
      rw [Nat.le_div_iff_mul_le hpoll]
      omega
    exact ⟨h3, hpolls, Or.inr (Or.inr ⟨h1, h2⟩)⟩

/-- Witness for claim C1 at a remote that is `DONE` on the first poll. -/
theorem wait_for_task_completion_spec_witness :
    (wait_for_task_completion exampleDoneQuery 10 5).elapsed < 10 + 5 :=
  (wait_for_task_completion_spec exampleDoneQuery 10 5 (by decide) (by decide)).1

/-! ## Progress formulas: monotonicity and bounds (claim C2) -/

/-- The `WAIT` progress formula is monotone in the elapsed time. -/
theorem waitP_mono (max_wait : Nat) {a b : Nat} (h : a ≤ b) :
    waitP max_wait a ≤ waitP max_wait b := by
  unfold waitP
  refine min_le_min le_rfl ?_
  rcases Nat.eq_zero_or_pos max_wait with h0 | h0
  · subst h0
    simp
  · have hmw : (0 : ℚ) < (max_wait : ℚ) := by exact_mod_cast h0
    have hab : (a : ℚ) ≤ (b : ℚ) := by exact_mod_cast h
    exact mul_le_mul_of_nonneg_right ((div_le_div_iff_of_pos_right hmw).mpr hab)
      (by norm_num)

/-- The `WAIT` progress formula is nonnegative. -/
theorem waitP_nonneg (max_wait e : Nat) : 0 ≤ waitP max_wait e := by
  unfold waitP
  refine le_min (by norm_num) ?_
  positivity

/-- The `WAIT` progress formula is at most 10. -/
theorem waitP_le_ten (max_wait e : Nat) : waitP max_wait e ≤ 10 :=
  min_le_left _ _

/-- The `RUN` progress formula is monotone in the elapsed time. -/
theorem runP_mono (rs : Nat) {a b : Nat} (h : a ≤ b) : runP a rs ≤ runP b rs := by
  unfold runP
  refine add_le_add_left (min_le_min le_rfl ?_) 10
  have hab : ((a - rs : Nat) : ℚ) ≤ ((b - rs : Nat) : ℚ) := by
    exact_mod_cast Nat.sub_le_sub_right h rs
  have h150 : (0 : ℚ) < 150 := by norm_num
  exact mul_le_mul_of_nonneg_right ((div_le_div_iff_of_pos_right h150).mpr hab)
    (by norm_num)

/-- The `RUN` progress formula is at least 10. -/
theorem runP_ge_ten (e rs : Nat) : 10 ≤ runP e rs := by
  unfold runP
  have h0 : (0 : ℚ) ≤ min 85 ((((e - rs : Nat) : ℚ) / 150) * 85) :=
    le_min (by norm_num) (by positivity)
  linarith

/-- The `RUN` progress formula is at most 95. -/
theorem runP_le_95 (e rs : Nat) : runP e rs ≤ 95 := by
  unfold runP
  have h85 := min_le_left (85 : ℚ) ((((e - rs : Nat) : ℚ) / 150) * 85)
  linarith

/-- A pairwise bound on a tick list conditional on a Boolean tick predicate
transfers to the plain pairwise ordering of the filtered progress values. -/
theorem pairwise_progress_filter (p : PollTick → Bool) :
    ∀ l : List PollTick,
      List.Pairwise (fun t1 t2 => p t1 = true → p t2 = true →
        t1.progress ≤ t2.progress) l →
      List.Pairwise (fun q1 q2 : ℚ => q1 ≤ q2)
        ((l.filter p).map (fun t => t.progress)) := by
  intro l
  induction l with
  | nil =>
    intro h
    simp
  | cons t rest ih =>
    intro hl
    rcases List.pairwise_cons.mp hl with ⟨hhead, htail⟩
    by_cases hp : p t = true
    · rw [List.filter_cons_of_pos hp, List.map_cons, List.pairwise_cons]
      refine ⟨?_, ih htail⟩
      intro q hq
      obtain ⟨t', ht', rfl⟩ := List.mem_map.mp hq
      exact hhead t' (List.mem_of_mem_filter ht') hp (List.of_mem_filter ht')
    · rw [List.filter_cons_of_neg hp]
      exact ih htail

/-- Trace invariants of the polling loop, for any fuel and any state whose
run start does not exceed the current elapsed time: every `WAIT` report is at
least the current `waitP` value and lies in `[0, 10]`; every `RUN` report
lies in `[10, 95]` (and, once running, is at least the current `runP` value);
every `DONE` report is 95 or 100; `WAIT` reports are pairwise non-decreasing,
as are `RUN` reports; and a `done` outcome's trace ends with the reports 95
and 100. -/
theorem wait_loop_trace_spec (query : Nat → TaskResult) (max_wait poll : Nat) :
    ∀ (fuel i : Nat) (s : Bool) (rs : Nat), (s = true → rs ≤ i * poll) →
      (∀ t ∈ (wait_loop query max_wait poll fuel i s rs).trace,
        (t.status = "WAIT" → waitP max_wait (i * poll) ≤ t.progress ∧
          0 ≤ t.progress ∧ t.progress ≤ 10) ∧
        (t.status = "RUN" → 10 ≤ t.progress ∧ t.progress ≤ 95 ∧
          (s = true → runP (i * poll) rs ≤ t.progress)) ∧
        (t.status = "DONE" → t.progress = 95 ∨ t.progress = 100)) ∧
      List.Pairwise (fun t1 t2 => t1.status = "WAIT" → t2.status = "WAIT" →
        t1.progress ≤ t2.progress) (wait_loop query max_wait poll fuel i s rs).trace ∧
      List.Pairwise (fun t1 t2 => t1.status = "RUN" → t2.status = "RUN" →
        t1.progress ≤ t2.progress) (wait_loop query max_wait poll fuel i s rs).trace ∧
      (∀ r, (wait_loop query max_wait poll fuel i s rs).outcome = WaitOutcome.done r →
        ∃ pre, (wait_loop query max_wait poll fuel i s rs).trace =
          pre ++ [⟨"DONE", 95⟩, ⟨"DONE", 100⟩]) := by
  intro fuel
  induction fuel with
  | zero =>
    intro i s rs hinv
    by_cases hlt : i * poll < max_wait
    · rw [wait_loop, if_pos hlt]
      refine ⟨by simp, by simp, by simp, ?_⟩
      intro r hr
      simp at hr
    · rw [wait_loop, if_neg hlt]
      refine ⟨by simp, by simp, by simp, ?_⟩
      intro r hr
      simp at hr
  | succ fuel ih =>
    intro i s rs hinv
    by_cases hlt : i * poll < max_wait
    · have hmono : i * poll ≤ (i + 1) * poll :=
        Nat.mul_le_mul_right poll (Nat.le_succ i)
      by_cases hD : (query i).status = "DONE"
      · rw [wait_loop_succ_done query max_wait poll fuel i s rs hlt hD]
        refine ⟨?_, ?_, ?_, ?_⟩
        · intro t ht
          rcases List.mem_cons.mp ht with rfl | ht'
          · exact ⟨fun h => by simp at h, fun h => by simp at h,
              fun _ => Or.inl rfl⟩
          · rcases List.mem_cons.mp ht' with rfl | ht''
            · exact ⟨fun h => by simp at h, fun h => by simp at h,
                fun _ => Or.inr rfl⟩
            · simp at ht''
        · refine List.pairwise_cons.mpr ⟨?_, List.pairwise_cons.mpr ⟨?_, List.Pairwise.nil⟩⟩
          · intro t ht h1 h2
            simp at h1
          · intro t ht h1 h2
            simp at h1
        · refine List.pairwise_cons.mpr ⟨?_, List.pairwise_cons.mpr ⟨?_, List.Pairwise.nil⟩⟩
          · intro t ht h1 h2
            simp at h1
          · intro t ht h1 h2
            simp at h1
        · intro r hr
          exact ⟨[], rfl⟩
      · by_cases hF : (query i).status = "FAIL"
        · rw [wait_loop_succ_fail query max_wait poll fuel i s rs hlt hF]
          refine ⟨?_, ?_, ?_, ?_⟩
          · intro t ht
            rcases List.mem_cons.mp ht with rfl | ht'
            · exact ⟨fun h => by simp at h, fun h => by simp at h,
                fun h => by simp at h⟩
            · simp at ht'
          · exact List.pairwise_singleton _ _
          · exact List.pairwise_singleton _ _
          · intro r hr
            simp at hr
        · by_cases hW : (query i).status = "WAIT"
          · rw [wait_loop_succ_wait query max_wait poll fuel i s rs hlt hW]
            have hinv' : s = true → rs ≤ (i + 1) * poll :=
              fun hs => le_trans (hinv hs) hmono
            obtain ⟨ihmem, ihpw, ihpr, ihdone⟩ := ih (i + 1) s rs hinv'
            refine ⟨?_, ?_, ?_, ?_⟩
            · intro t ht
              rcases List.mem_cons.mp ht with rfl | ht'
              · exact ⟨fun _ => ⟨le_rfl, waitP_nonneg _ _, waitP_le_ten _ _⟩,
                  fun h => by simp at h, fun h => by simp at h⟩
              · obtain ⟨hW', hR', hD'⟩ := ihmem t ht'
                refine ⟨fun h => ?_, fun h => ?_, hD'⟩
                · obtain ⟨hlow, hb1, hb2⟩ := hW' h
                  exact ⟨le_trans (waitP_mono max_wait hmono) hlow, hb1, hb2⟩
                · obtain ⟨h10, h95, hlow⟩ := hR' h
                  exact ⟨h10, h95,
                    fun hs => le_trans (runP_mono rs hmono) (hlow hs)⟩
            · refine List.pairwise_cons.mpr ⟨?_, ihpw⟩
              intro t ht h1 h2
              have hlow := ((ihmem t ht).1 h2).1
              exact le_trans (waitP_mono max_wait hmono) hlow
            · refine List.pairwise_cons.mpr ⟨?_, ihpr⟩
              intro t ht h1 h2
              simp at h1
            · intro r hr
              obtain ⟨pre, hpre⟩ := ihdone r hr
              refine ⟨⟨"WAIT", waitP max_wait (i * poll)⟩ :: pre, ?_⟩
              show ⟨"WAIT", waitP max_wait (i * poll)⟩ ::
                (wait_loop query max_wait poll fuel (i + 1) s rs).trace = _
              rw [hpre, List.cons_append]
          · by_cases hR : (query i).status = "RUN"
            · rw [wait_loop_succ_run query max_wait poll fuel i s rs hlt hR]
              have hrs' : (if s then rs else i * poll) ≤ i * poll := by
                cases s
                · simp
                · simpa using hinv rfl
              have hinv' : true = true → (if s then rs else i * poll) ≤ (i + 1) * poll :=
                fun _ => le_trans hrs' hmono
              obtain ⟨ihmem, ihpw, ihpr, ihdone⟩ :=
                ih (i + 1) true (if s then rs else i * poll) hinv'
              refine ⟨?_, ?_, ?_, ?_⟩
              · intro t ht
                rcases List.mem_cons.mp ht with rfl | ht'
                · refine ⟨fun h => by simp at h,
                    fun _ => ⟨runP_ge_ten _ _, runP_le_95 _ _, fun hs => ?_⟩,
                    fun h => by simp at h⟩
                  subst hs
                  exact le_rfl
                · obtain ⟨hW', hR', hD'⟩ := ihmem t ht'
                  refine ⟨fun h => ?_, fun h => ?_, hD'⟩
                  · obtain ⟨hlow, hb1, hb2⟩ := hW' h
                    exact ⟨le_trans (waitP_mono max_wait hmono) hlow, hb1, hb2⟩
                  · obtain ⟨h10, h95, hlow⟩ := hR' h
                    refine ⟨h10, h95, fun hs => ?_⟩
                    subst hs
                    exact le_trans (runP_mono rs hmono) (hlow rfl)
              · refine List.pairwise_cons.mpr ⟨?_, ihpw⟩
                intro t ht h1 h2
                simp at h1
              · refine List.pairwise_cons.mpr ⟨?_, ihpr⟩
                intro t ht h1 h2
                have hlow := ((ihmem t ht).2.1 h2).2.2 rfl
                exact le_trans (runP_mono (if s then rs else i * poll) hmono) hlow
              · intro r hr
                obtain ⟨pre, hpre⟩ := ihdone r hr
                refine ⟨⟨"RUN", runP (i * poll) (if s then rs else i * poll)⟩ :: pre, ?_⟩
                show ⟨"RUN", runP (i * poll) (if s then rs else i * poll)⟩ ::
                  (wait_loop query max_wait poll fuel (i + 1) true
                    (if s then rs else i * poll)).trace = _
                rw [hpre, List.cons_append]
            · rw [wait_loop_succ_other query max_wait poll fuel i s rs hlt hW hR hD hF]
              have hinv' : s = true → rs ≤ (i + 1) * poll :=
                fun hs => le_trans (hinv hs) hmono
              obtain ⟨ihmem, ihpw, ihpr, ihdone⟩ := ih (i + 1) s rs hinv'
              refine ⟨?_, ?_, ?_, ?_⟩
              · intro t ht
                rcases List.mem_cons.mp ht with rfl | ht'
                · exact ⟨fun h => absurd h hW, fun h => absurd h hR,
                    fun h => absurd h hD⟩
                · obtain ⟨hW', hR', hD'⟩ := ihmem t ht'
                  refine ⟨fun h => ?_, fun h => ?_, hD'⟩
                  · obtain ⟨hlow, hb1, hb2⟩ := hW' h
                    exact ⟨le_trans (waitP_mono max_wait hmono) hlow, hb1, hb2⟩
                  · obtain ⟨h10, h95, hlow⟩ := hR' h
                    exact ⟨h10, h95,
                      fun hs => le_trans (runP_mono rs hmono) (hlow hs)⟩
              · refine List.pairwise_cons.mpr ⟨?_, ihpw⟩
                intro t ht h1 h2
                exact absurd h1 hW
              · refine List.pairwise_cons.mpr ⟨?_, ihpr⟩
                intro t ht h1 h2
                exact absurd h1 hR
              · intro r hr
                obtain ⟨pre, hpre⟩ := ihdone r hr
                refine ⟨⟨(query i).status, 95⟩ :: pre, ?_⟩
                show ⟨(query i).status, 95⟩ ::
                  (wait_loop query max_wait poll fuel (i + 1) s rs).trace = _
                rw [hpre, List.cons_append]
    · rw [wait_loop_guard_false query max_wait poll i hlt (fuel + 1) s rs]
      refine ⟨by simp, by simp, by simp, ?_⟩
      intro r hr
      simp at hr

/-- Counterexample to claim C2 as stated: on the poll where the status is
`DONE`, the callback is invoked twice — first with 95 (the `else` branch of
the progress estimate runs before the `DONE` check) and only then with 100 —
so not every progress reported on the `DONE` poll equals 100. -/
theorem wait_progress_done_counterexample :
    (wait_for_task_completion exampleDoneQuery 10 5).trace =
      [⟨"DONE", 95⟩, ⟨"DONE", 100⟩] ∧
    (⟨"DONE", (95 : ℚ)⟩ : PollTick) ∈
      (wait_for_task_completion exampleDoneQuery 10 5).trace ∧
    (95 : ℚ) ≠ 100 := by
  refine ⟨by decide, by decide, by decide⟩

/-- Claim C2 (amended): progress percentages reported while the status is
`WAIT` are non-decreasing and bounded in `[0, 10]`; while `RUN`,
non-decreasing and bounded in `[10, 95]`; every report on a `DONE` poll is 95
or 100; and when the loop returns a `done` result its trace ends with the two
reports 95 and then 100 — so the final progress reported on the `DONE` poll
is exactly 100, but it is preceded by a 95 report on the same poll. -/
theorem wait_progress_spec (query : Nat → TaskResult) (max_wait poll : Nat) :
    List.Pairwise (fun q1 q2 : ℚ => q1 ≤ q2)
      (wait_for_task_completion query max_wait poll).waitProgresses ∧
    (∀ q ∈ (wait_for_task_completion query max_wait poll).waitProgresses,
      0 ≤ q ∧ q ≤ 10) ∧
    List.Pairwise (fun q1 q2 : ℚ => q1 ≤ q2)
      (wait_for_task_completion query max_wait poll).runProgresses ∧
    (∀ q ∈ (wait_for_task_completion query max_wait poll).runProgresses,
      10 ≤ q ∧ q ≤ 95) ∧
    (∀ t ∈ (wait_for_task_completion query max_wait poll).trace,
      t.status = "DONE" → t.progress = 95 ∨ t.progress = 100) ∧
    (∀ r, (wait_for_task_completion query max_wait poll).outcome = WaitOutcome.done r →
      ∃ pre, (wait_for_task_completion query max_wait poll).trace =
        pre ++ [⟨"DONE", 95⟩, ⟨"DONE", 100⟩]) := by
  obtain ⟨hmem, hpw, hpr, hdone⟩ :=
    wait_loop_trace_spec query max_wait poll max_wait 0 false 0 (by simp)
  rw [wait_for_task_completion]
  refine ⟨?_, ?_, ?_, ?_, ?_, hdone⟩
  · simp only [WaitRun.waitProgresses]
    exact pairwise_progress_filter _ _
      (hpw.imp (fun hab hd1 hd2 =>
        hab (of_decide_eq_true hd1) (of_decide_eq_true hd2)))
  · intro q hq
    simp only [WaitRun.waitProgresses] at hq
    obtain ⟨t, ht, rfl⟩ := List.mem_map.mp hq
    have hfp := List.of_mem_filter ht
    have hts : t.status = "WAIT" := by simpa using hfp
    have h := (hmem t (List.mem_of_mem_filter ht)).1 hts
    exact ⟨h.2.1, h.2.2⟩
  · simp only [WaitRun.runProgresses]
    exact pairwise_progress_filter _ _
      (hpr.imp (fun hab hd1 hd2 =>
        hab (of_decide_eq_true hd1) (of_decide_eq_true hd2)))
  · intro q hq
    simp only [WaitRun.runProgresses] at hq
    obtain ⟨t, ht, rfl⟩ := List.mem_map.mp hq
    have hfp := List.of_mem_filter ht
    have hts : t.status = "RUN" := by simpa using hfp
    have h := (hmem t (List.mem_of_mem_filter ht)).2.1 hts
    exact ⟨h.1, h.2.1⟩
  · intro t ht
    exact (hmem t ht).2.2

/-- Witness for claim C2 (amended): the 95 report on the `DONE` poll of a
concrete run is covered by the 95-or-100 clause. -/
theorem wait_progress_spec_witness :
    (95 : ℚ) = 95 ∨ (95 : ℚ) = 100 :=
  (wait_progress_spec exampleDoneQuery 10 5).2.2.2.2.1 ⟨"DONE", 95⟩ (by decide) rfl

end Hunyuan3D
